import Mathlib

/-!
Verification of the fx_plot streaming market-data core against its design
document.  The Rust sources embedded here are src/consumer.rs (message
parsing and the per-provider series store) and src/lib.rs (the time-axis
labeler).  Machine integers are modelled as Nat with explicit reduction
modulo 2 to the 64 where the u64 arithmetic can wrap; f64 prices are never
computed with by the program (they are parsed, stored and compared), so a
successfully parsed price is represented by the trimmed numeric literal
that produced it; the x coordinates pushed into buy_points are exact
integers below 2 to the 35, hence exactly representable in f64, and are
modelled as Nat.  String splitting and trimming are re-implemented over
List Char with structural recursion so that every definition evaluates
inside the kernel.
-/

/-- Size of the u64 value space, 2 to the 64. -/
def U64 : Nat := 18446744073709551616

/-! ## Character-list string utilities

Rust str::split with a one-character pattern, str::trim, and the numeric
grammars of f64::from_str and u64::from_str, re-implemented structurally.
-/

/-- Rust data.split with the one-character pattern of a vertical bar:
splits a character list at every bar, keeping empty pieces, and yields
at least one piece for the empty input. -/
def splitPipe : List Char → List (List Char)
  | [] => [[]]
  | c :: cs =>
    if c = '|' then [] :: splitPipe cs
    else
      match splitPipe cs with
      | [] => [[c]]
      | h :: t => (c :: h) :: t

/-- Rust str::trim restricted to the ASCII whitespace the feed can carry:
drop leading and trailing whitespace characters. -/
def trimChars (cs : List Char) : List Char :=
  ((cs.dropWhile Char.isWhitespace).reverse.dropWhile Char.isWhitespace).reverse

/-- Strip one optional leading sign character, as the Rust numeric parsers
do before reading digits. -/
def stripSign : List Char → List Char
  | '+' :: cs => cs
  | '-' :: cs => cs
  | cs => cs

/-- Digits, optionally followed by a dot and further digits: the mantissa
shape accepted by f64::from_str once the sign is gone. -/
def digitsDotDigits : List Char → Bool
  | [] => true
  | c :: cs =>
    if c.isDigit then digitsDotDigits cs
    else if c = '.' then cs.all Char.isDigit
    else false

/-- Split a character list at the first exponent marker, returning the
mantissa part and, when a marker is present, the exponent part. -/
def splitAtExpChar : List Char → List Char × Option (List Char)
  | [] => ([], none)
  | c :: cs =>
    if c = 'e' ∨ c = 'E' then ([], some cs)
    else
      match splitAtExpChar cs with
      | (m, r) => (c :: m, r)

/-- An exponent part: an optional sign followed by at least one digit. -/
def expPartOk (cs : List Char) : Bool :=
  let ds := stripSign cs
  !ds.isEmpty && ds.all Char.isDigit

/-- Lower-case a character list, for the case-insensitive special float
words accepted by f64::from_str. -/
def lowerChars (cs : List Char) : List Char := cs.map Char.toLower

/-- The grammar accepted by Rust f64::from_str: an optional sign, then
either one of the special words inf, infinity, nan (case-insensitive) or
a decimal mantissa containing at least one digit, optionally followed by
an exponent. -/
def floatOk (s : String) : Bool :=
  let cs := stripSign s.data
  lowerChars cs == "inf".data || lowerChars cs == "infinity".data ||
  lowerChars cs == "nan".data ||
  (let mr := splitAtExpChar cs
   digitsDotDigits mr.1 && mr.1.any Char.isDigit &&
   (match mr.2 with
    | none => true
    | some e => expPartOk e))

/-- Numeric value of a digit string. -/
def digitsToNat (cs : List Char) : Nat :=
  cs.foldl (fun n c => n * 10 + (c.toNat - 48)) 0

/-- Error kinds of std::num::ParseFloatError: this is the whole payload
the Rust error carries - no field name and no offending text. -/
inductive FloatErrorKind
  | empty
  | invalid
deriving DecidableEq, Repr

/-- Error kinds of std::num::ParseIntError as reachable from u64 parsing:
again the whole payload the Rust error carries. -/
inductive IntErrorKind
  | empty
  | invalidDigit
  | posOverflow
deriving DecidableEq, Repr

/-- Rust str::parse::<f64>().  The successfully parsed f64 is represented
by the literal that produced it; the program stores prices without ever
computing with them, so the literal determines all observable behavior. -/
def parse_f64 (s : String) : Except FloatErrorKind String :=
  if s.data.isEmpty then Except.error FloatErrorKind.empty
  else if floatOk s then Except.ok s
  else Except.error FloatErrorKind.invalid

/-- Rust str::parse::<u64>(): an optional plus sign then decimal digits,
rejecting the empty string, non-digits (including a minus sign) and
values of 2 to the 64 or more. -/
def parse_u64 (s : String) : Except IntErrorKind Nat :=
  if s.data.isEmpty then Except.error IntErrorKind.empty
  else
    let cs := match s.data with
      | '+' :: rest => rest
      | cs => cs
    if cs.isEmpty then Except.error IntErrorKind.invalidDigit
    else if cs.all Char.isDigit then
      if digitsToNat cs < U64 then Except.ok (digitsToNat cs)
      else Except.error IntErrorKind.posOverflow
    else Except.error IntErrorKind.invalidDigit

/-! ## Data model (src/consumer.rs lines 16 to 40) -/

/-- One liquidity provider's series, struct LpBuyPoints.  A buy point
pairs the plotted x coordinate in whole seconds (an exact integer below
2 to the 35, hence f64-exact) with the retained 1M buy price.  The
wall-clock anchors are the integers 0 to 23 and 0 to 59 that the f64
fields always hold. -/
structure LpBuyPoints where
  name : String
  buy_points : List (Nat × String)
  zero_time_ref : Nat
  global_start_hour : Nat
  global_start_minute : Nat
deriving DecidableEq, Repr

/-- The process-wide store, struct MarketData. -/
structure MarketData where
  liquidity_providers : List LpBuyPoints
deriving DecidableEq, Repr

/-- enum AppError (src/consumer.rs lines 42 to 50).  The Io variant is
unreachable from message processing and is omitted; the two numeric
variants carry exactly what the std error types carry - an error kind. -/
inductive AppError
  | NumParams
  | IsEmpty
  | ParseFloat (kind : FloatErrorKind)
  | ParseInt (kind : IntErrorKind)
deriving DecidableEq, Repr

/-! ## Message parsing (src/consumer.rs lines 144 to 161, 220 to 236) -/

/-- fn get_params (src/consumer.rs lines 220 to 227): split the payload
on the bar delimiter and fail with NumParams when fewer pieces than
requested are present. -/
def get_params (data : String) (number : Nat) : Except AppError (List (List Char)) :=
  let value := splitPipe data.data
  if value.length < number then Except.error AppError.NumParams
  else Except.ok (splitPipe data.data)

/-- fn get_str_field (src/consumer.rs lines 229 to 236): an absent field
defaults to empty, a field that trims to nothing is IsEmpty, otherwise
the trimmed text is returned. -/
def get_str_field (field : Option (List Char)) : Except AppError String :=
  let value := field.getD []
  if (trimChars value).isEmpty then Except.error AppError.IsEmpty
  else Except.ok (String.mk (trimChars value))

/-- The parsing phase of fn extract_market_data (src/consumer.rs lines
144 to 161): field count check, provider and currency pair as non-empty
trimmed strings, six prices as f64, timestamp as u64, each field trimmed
before the numeric parse, failing on the first bad field.  Only the
provider, the 1M buy price and the timestamp flow into the store; the
other five prices are parsed for validation and dropped, exactly as the
source pushes them into the unused vol_prices_vec. -/
def parse_quote (payload : String) : Except AppError (String × String × Nat) :=
  match get_params payload 9 with
  | Except.error e => Except.error e
  | Except.ok fields =>
  match get_str_field (fields.get? 0) with
  | Except.error e => Except.error e
  | Except.ok liquidity_provider =>
  match get_str_field (fields.get? 1) with
  | Except.error e => Except.error e
  | Except.ok _currency_pair =>
  match parse_f64 (String.mk (trimChars ((fields.get? 2).getD []))) with
  | Except.error k => Except.error (AppError.ParseFloat k)
  | Except.ok one_mill_buy_price =>
  match parse_f64 (String.mk (trimChars ((fields.get? 3).getD []))) with
  | Except.error k => Except.error (AppError.ParseFloat k)
  | Except.ok _one_mill_sell_price =>
  match parse_f64 (String.mk (trimChars ((fields.get? 4).getD []))) with
  | Except.error k => Except.error (AppError.ParseFloat k)
  | Except.ok _three_mill_buy_price =>
  match parse_f64 (String.mk (trimChars ((fields.get? 5).getD []))) with
  | Except.error k => Except.error (AppError.ParseFloat k)
  | Except.ok _three_mill_sell_price =>
  match parse_f64 (String.mk (trimChars ((fields.get? 6).getD []))) with
  | Except.error k => Except.error (AppError.ParseFloat k)
  | Except.ok _five_mill_buy_price =>
  match parse_f64 (String.mk (trimChars ((fields.get? 7).getD []))) with
  | Except.error k => Except.error (AppError.ParseFloat k)
  | Except.ok _five_mill_sell_price =>
  match parse_u64 (String.mk (trimChars ((fields.get? 8).getD []))) with
  | Except.error k => Except.error (AppError.ParseInt k)
  | Except.ok timestamp =>
    Except.ok (liquidity_provider, one_mill_buy_price, timestamp)

/-! ## Series store (src/consumer.rs lines 163 to 218) -/

/-- UTC wall-clock hour of a Unix nanosecond timestamp: what chrono
renders for the percent-H directive of the derived DateTime.  Unix time
counts exactly 86400 seconds per day. -/
def hourOfNanos (t : Nat) : Nat := t / 1000000000 % 86400 / 3600

/-- UTC wall-clock minute of a Unix nanosecond timestamp, the percent-M
directive. -/
def minuteOfNanos (t : Nat) : Nat := t / 1000000000 % 3600 / 60

/-- Rust formatting with the two-digit zero-padding directive, as used
both by chrono percent-H and percent-M output and by the axis label
format string. -/
def fmt02 (n : Nat) : String := if n < 10 then "0" ++ toString n else toString n

/-- src/consumer.rs lines 192 to 199: the hour text produced by chrono
is parsed back as f64, defaulting to 0 if that parse fails.  The parsed
f64 of a two-digit string is exactly its decimal value. -/
def global_start_hour_of (t : Nat) : Nat :=
  match parse_f64 (fmt02 (hourOfNanos t)) with
  | Except.ok _ => hourOfNanos t
  | Except.error _ => 0

/-- src/consumer.rs lines 200 to 207: same round-trip for the minute. -/
def global_start_minute_of (t : Nat) : Nat :=
  match parse_f64 (fmt02 (minuteOfNanos t)) with
  | Except.ok _ => minuteOfNanos t
  | Except.error _ => 0

/-- The fresh series pushed for an unseen provider (src/consumer.rs
lines 170 to 177). -/
def newLp (name : String) : LpBuyPoints :=
  { name := name, buy_points := [], zero_time_ref := 0,
    global_start_hour := 0, global_start_minute := 0 }

/-- src/consumer.rs lines 165 to 178: when no stored series carries the
provider name, push a fresh one at the end. -/
def insertIfAbsent (md : MarketData) (provider : String) : MarketData :=
  if md.liquidity_providers.all (fun lp => lp.name != provider) then
    { liquidity_providers := md.liquidity_providers ++ [newLp provider] }
  else md

/-- The in-place mutation of the found series (src/consumer.rs lines 186
to 214).  First quote: anchor zero_time_ref, push the origin point and
capture the wall-clock anchors.  Later quotes: the source computes
timestamp - lp.zero_time_ref on u64, which wraps modulo 2 to the 64 in
release builds and panics in overflow-checked builds when the timestamp
is older than the anchor; the wrapped value is what is divided down to
seconds and pushed. -/
def apply_lp (timestamp : Nat) (one_mill_buy_price : String) (lp : LpBuyPoints) : LpBuyPoints :=
  if lp.buy_points.length = 0 then
    { lp with zero_time_ref := timestamp,
              buy_points := lp.buy_points ++ [(0, one_mill_buy_price)],
              global_start_hour := global_start_hour_of timestamp,
              global_start_minute := global_start_minute_of timestamp }
  else
    { lp with buy_points := lp.buy_points ++
        [((timestamp + U64 - lp.zero_time_ref) % U64 / 1000000000, one_mill_buy_price)] }

/-- Rewrite only the first element satisfying the predicate, the
functional rendering of iter underscore mut find followed by an in-place
mutation. -/
def updateFirst {α : Type} (p : α → Bool) (f : α → α) : List α → List α
  | [] => []
  | a :: l => if p a then f a :: l else a :: updateFirst p f l

/-- The store phase of fn extract_market_data (src/consumer.rs lines 163
to 215): insert the provider when absent, then update the first series
carrying its name. -/
def apply_quote (md : MarketData) (provider one_mill_buy_price : String)
    (timestamp : Nat) : MarketData :=
  let md1 := insertIfAbsent md provider
  { liquidity_providers :=
      updateFirst (fun lp => lp.name == provider) (apply_lp timestamp one_mill_buy_price)
        md1.liquidity_providers }

/-- fn extract_market_data (src/consumer.rs lines 144 to 218): parse
everything first, then mutate.  The pair returns the store after the
call together with the error, if any; every parse failure leaves the
store exactly as it was because no mutation precedes the last parse. -/
def extract_market_data (md : MarketData) (payload : String) : MarketData × Option AppError :=
  match parse_quote payload with
  | Except.error e => (md, some e)
  | Except.ok q => (apply_quote md q.1 q.2.1 q.2.2, none)

/-- fn MarketData::update (src/consumer.rs lines 22 to 25). -/
def MarketData.update (md : MarketData) (market_data : String) : MarketData × Option AppError :=
  extract_market_data md market_data

/-- True when the store phase reaches the u64 subtraction with a
timestamp older than the series anchor: the condition under which the
overflow check of a debug build aborts at src/consumer.rs line 211. -/
def apply_aborts (md : MarketData) (provider : String) (timestamp : Nat) : Bool :=
  match (insertIfAbsent md provider).liquidity_providers.find?
      (fun lp => lp.name == provider) with
  | some lp => !lp.buy_points.isEmpty && decide (timestamp < lp.zero_time_ref)
  | none => false

/-- Lift of apply_aborts to a raw message: a message whose parse fails
never reaches the subtraction. -/
def update_aborts (md : MarketData) (payload : String) : Bool :=
  match parse_quote payload with
  | Except.error _ => false
  | Except.ok q => apply_aborts md q.1 q.2.2

/-! ## Time axis labeler (src/lib.rs lines 109 to 148)

The source takes f64 arguments.  The stored anchors are always the
integers 0 to 23 and 0 to 59, and the plotted x values are whole
seconds, so the embedding works on the integer domain, on which every
f64 operation of the source is exact.  The one inexact step is the cast
of seconds to u32, which saturates at 4294967295; the embedding keeps
that saturation. -/

/-- fn get_time_axis_string (src/lib.rs lines 109 to 148), on integral
inputs.  minutes underscore part is computed from the u32 cast of
seconds, which saturates at the u32 maximum; branch selection compares
the uncast seconds. -/
def get_time_axis_string (seconds start_hour start_minute : Nat) : String :=
  let minutes_part := min seconds 4294967295 / 60
  if 3600 ≤ seconds then
    if 60 ≤ minutes_part % 60 + start_minute then
      fmt02 ((start_hour + minutes_part / 60 + 1) % 24) ++ ":" ++
        fmt02 (start_minute + minutes_part % 60 - 60)
    else
      fmt02 ((start_hour + minutes_part / 60) % 24) ++ ":" ++
        fmt02 (start_minute + minutes_part % 60)
  else if 60 ≤ seconds then
    if 60 ≤ minutes_part + start_minute then
      fmt02 ((start_hour + 1) % 24) ++ ":" ++ fmt02 (start_minute + minutes_part - 60)
    else
      fmt02 start_hour ++ ":" ++ fmt02 (start_minute + minutes_part)
  else
    ""

/-! ## Spec-side definitions

Written from the words of the design document, for refinement
comparison with the code-side definitions above. -/

/-- Modelled from the spec: section 4.3 label rules verbatim, with the
true mathematical floor of elapsed over 60 and no u32 saturation. -/
def specLabel (elapsed_seconds start_hour start_minute : Nat) : String :=
  if elapsed_seconds < 60 then ""
  else
    let minutes_part := elapsed_seconds / 60
    if 3600 ≤ elapsed_seconds then
      let remaining_minutes := minutes_part % 60
      if 60 ≤ remaining_minutes + start_minute then
        fmt02 ((start_hour + minutes_part / 60 + 1) % 24) ++ ":" ++
          fmt02 (start_minute + remaining_minutes - 60)
      else
        fmt02 ((start_hour + minutes_part / 60) % 24) ++ ":" ++
          fmt02 (start_minute + remaining_minutes)
    else
      if 60 ≤ minutes_part + start_minute then
        fmt02 ((start_hour + 1) % 24) ++ ":" ++
          fmt02 (start_minute + minutes_part - 60)
      else
        fmt02 start_hour ++ ":" ++ fmt02 (start_minute + minutes_part)

/-- Modelled from the spec: section 4.2 step 3, elapsed seconds as the
mathematical floor division of the signed difference of timestamp and
anchor, for comparison with the wrapping u64 computation of the code. -/
def spec_elapsed_seconds (timestamp zero_time_ref : Nat) : Int :=
  Int.fdiv ((timestamp : Int) - (zero_time_ref : Int)) 1000000000

/-! ## Auxiliary definitions for the invariants -/

/-- A list of naturals is non-decreasing from first to last. -/
def nondecreasing : List Nat → Bool
  | [] => true
  | [_] => true
  | a :: b :: l => decide (a ≤ b) && nondecreasing (b :: l)

/-- The x coordinates of a series. -/
def lpXs (lp : LpBuyPoints) : List Nat := lp.buy_points.map Prod.fst

/-- Fold a batch of quotes (timestamp and retained price) into one
provider's series through the store mutation. -/
def applyQuotesLp (lp : LpBuyPoints) (qs : List (Nat × String)) : LpBuyPoints :=
  qs.foldl (fun l q => apply_lp q.1 q.2 l) lp

/-- Invariant carried while folding in-order quotes into one series:
the x coordinates are non-decreasing, the anchor fits in u64, and for a
non-empty series the anchor is at or before the latest applied
timestamp t while every x coordinate is at most the elapsed seconds of
t. -/
def lpInv (lp : LpBuyPoints) (t : Nat) : Prop :=
  nondecreasing (lpXs lp) = true ∧ lp.zero_time_ref < U64 ∧
    (lp.buy_points ≠ [] → lp.zero_time_ref ≤ t ∧
      ∀ x ∈ lpXs lp, x ≤ (t - lp.zero_time_ref) / 1000000000)

/-! ## Helper lemmas -/

/-- When no underflow occurs and the minuend fits in u64, the wrapping
u64 subtraction agrees with plain subtraction. -/
theorem wrap_sub_eq {z t : Nat} (hz : z ≤ t) (ht : t < U64) :
    (t + U64 - z) % U64 = t - z := by
  have h1 : t + U64 - z = (t - z) + U64 := by omega
  rw [h1, Nat.add_mod_right, Nat.mod_eq_of_lt (by omega)]

theorem apply_lp_name (t : Nat) (price : String) (lp : LpBuyPoints) :
    (apply_lp t price lp).name = lp.name := by
  unfold apply_lp; split <;> rfl

theorem updateFirst_map {α β : Type} (p : α → Bool) (f : α → α) (g : α → β)
    (hg : ∀ a, g (f a) = g a) : ∀ l : List α, (updateFirst p f l).map g = l.map g := by
  intro l
  induction l with
  | nil => rfl
  | cons a l ih =>
    by_cases h : p a = true
    · simp [updateFirst, h, hg]
    · simp [updateFirst, h, ih]

theorem updateFirst_filter_not {α : Type} (p : α → Bool) (f : α → α)
    (hf : ∀ a, p a = true → p (f a) = true) :
    ∀ l : List α, (updateFirst p f l).filter (fun a => !p a) = l.filter (fun a => !p a) := by
  intro l
  induction l with
  | nil => rfl
  | cons a l ih =>
    by_cases h : p a = true
    · simp [updateFirst, h, List.filter_cons, hf a h]
    · simp [updateFirst, h, List.filter_cons, ih]

theorem updateFirst_find? {α : Type} (p : α → Bool) (f : α → α)
    (hf : ∀ a, p a = true → p (f a) = true) :
    ∀ l : List α, (updateFirst p f l).find? p = (l.find? p).map f := by
  intro l
  induction l with
  | nil => rfl
  | cons a l ih =>
    by_cases h : p a = true
    · simp [updateFirst, h, List.find?_cons_of_pos _ (hf a h), List.find?_cons_of_pos _ h]
    · simp [updateFirst, h, List.find?_cons_of_neg, ih]

theorem updateFirst_append_left {α : Type} (p : α → Bool) (f : α → α) :
    ∀ l₁ l₂ : List α, (∀ a ∈ l₁, p a = false) →
      updateFirst p f (l₁ ++ l₂) = l₁ ++ updateFirst p f l₂ := by
  intro l₁
  induction l₁ with
  | nil => intro l₂ _; rfl
  | cons a l ih =>
    intro l₂ h
    have ha : p a = false := h a (List.mem_cons_self a l)
    simp only [List.cons_append, updateFirst, ha, Bool.false_eq_true, if_false, List.append_eq]
    rw [ih l₂ (fun x hx => h x (List.mem_cons_of_mem a hx))]

theorem find?_append_left_none {α : Type} (p : α → Bool) :
    ∀ l₁ l₂ : List α, (∀ a ∈ l₁, p a = false) →
      (l₁ ++ l₂).find? p = l₂.find? p := by
  intro l₁
  induction l₁ with
  | nil => intro l₂ _; rfl
  | cons a l ih =>
    intro l₂ h
    have ha : p a = false := h a (List.mem_cons_self a l)
    rw [List.cons_append, List.find?_cons_of_neg _ (by simp [ha]),
      ih l₂ (fun x hx => h x (List.mem_cons_of_mem a hx))]

theorem all_bne_eq (l : List LpBuyPoints) (p : String) :
    (l.all fun lp => lp.name != p) = !(l.any fun lp => lp.name == p) := by
  induction l with
  | nil => rfl
  | cons a l ih =>
    simp only [List.all_cons, List.any_cons, Bool.not_or, bne] at ih ⊢
    rw [ih]

theorem nondecreasing_cons_zero : ∀ l : List Nat,
    nondecreasing l = true → nondecreasing (0 :: l) = true := by
  intro l h
  cases l with
  | nil => rfl
  | cons a l' => simp [nondecreasing, Nat.zero_le, h]

theorem nondecreasing_append_last : ∀ (l : List Nat) (y : Nat),
    nondecreasing l = true → (∀ x ∈ l, x ≤ y) → nondecreasing (l ++ [y]) = true := by
  intro l
  induction l with
  | nil => intro y _ _; rfl
  | cons a l ih =>
    intro y h hb
    cases l with
    | nil =>
      simp [nondecreasing]
      exact hb a (List.mem_cons_self a [])
    | cons b l' =>
      simp only [nondecreasing, Bool.and_eq_true, decide_eq_true_eq] at h
      simp only [List.cons_append, nondecreasing, Bool.and_eq_true, decide_eq_true_eq]
      exact ⟨h.1, ih y h.2 (fun x hx => hb x (List.mem_cons_of_mem a hx))⟩

theorem hourOfNanos_lt (t : Nat) : hourOfNanos t < 24 := by
  unfold hourOfNanos
  omega

theorem minuteOfNanos_lt (t : Nat) : minuteOfNanos t < 60 := by
  unfold minuteOfNanos
  omega

/-- Two-digit zero-padded renderings of the clock values all pass the
float grammar and are non-empty: the round-trip parse in the source can
never fail. -/
theorem fmt02_parses : ∀ n, n < 60 →
    floatOk (fmt02 n) = true ∧ (fmt02 n).data.isEmpty = false := by decide

theorem parse_f64_fmt02 (n : Nat) (hn : n < 60) :
    parse_f64 (fmt02 n) = Except.ok (fmt02 n) := by
  have h := fmt02_parses n hn
  simp [parse_f64, h.1, h.2]

theorem global_start_hour_of_eq (t : Nat) :
    global_start_hour_of t = hourOfNanos t := by
  unfold global_start_hour_of
  rw [parse_f64_fmt02 (hourOfNanos t) (Nat.lt_of_lt_of_le (hourOfNanos_lt t) (by omega))]

theorem global_start_minute_of_eq (t : Nat) :
    global_start_minute_of t = minuteOfNanos t := by
  unfold global_start_minute_of
  rw [parse_f64_fmt02 (minuteOfNanos t) (minuteOfNanos_lt t)]

/-- One in-order store step preserves the series invariant. -/
theorem lpInv_step {lp : LpBuyPoints} {t t' : Nat} (price : String)
    (h : lpInv lp t) (htt : t ≤ t') (ht' : t' < U64) :
    lpInv (apply_lp t' price lp) t' := by
  obtain ⟨hnd, hz, hne⟩ := h
  by_cases hempty : lp.buy_points.length = 0
  · have hbe : lp.buy_points = [] := List.length_eq_zero.mp hempty
    unfold apply_lp
    rw [if_pos hempty]
    refine ⟨by simp [lpXs, hbe, nondecreasing], ht', fun _ => ⟨Nat.le_refl t', ?_⟩⟩
    intro x hx
    simp [lpXs, hbe] at hx
    omega
  · have hbne : lp.buy_points ≠ [] := fun hc => hempty (by simp [hc])
    obtain ⟨hzt, hbound⟩ := hne hbne
    have hzt' : lp.zero_time_ref ≤ t' := Nat.le_trans hzt htt
    have hw : (t' + U64 - lp.zero_time_ref) % U64 = t' - lp.zero_time_ref :=
      wrap_sub_eq hzt' ht'
    have hmono : ∀ x ∈ lpXs lp, x ≤ (t' - lp.zero_time_ref) / 1000000000 := by
      intro x hx
      exact Nat.le_trans (hbound x hx)
        (Nat.div_le_div_right (Nat.sub_le_sub_right htt _))
    unfold apply_lp
    rw [if_neg hempty]
    refine ⟨?_, hz, fun _ => ⟨hzt', ?_⟩⟩
    · simp only [lpXs, List.map_append, List.map_cons, List.map_nil, hw]
      exact nondecreasing_append_last _ _ hnd hmono
    · intro x hx
      simp only [lpXs, List.map_append, List.map_cons, List.map_nil, hw,
        List.mem_append, List.mem_singleton] at hx
      show x ≤ (t' - lp.zero_time_ref) / 1000000000
      rcases hx with hx | hx
      · exact hmono x hx
      · omega

/-- Folding a batch of in-order quotes from any state satisfying the
invariant keeps the invariant, for some final reference time. -/
theorem lpInv_fold : ∀ (qs : List (Nat × String)) (lp : LpBuyPoints) (t : Nat),
    lpInv lp t → nondecreasing (t :: qs.map Prod.fst) = true →
    (∀ u ∈ qs.map Prod.fst, u < U64) →
    ∃ t', lpInv (applyQuotesLp lp qs) t' := by
  intro qs
  induction qs with
  | nil => intro lp t h _ _; exact ⟨t, h⟩
  | cons q qs ih =>
    intro lp t h hch hu
    simp only [List.map_cons, nondecreasing, Bool.and_eq_true, decide_eq_true_eq] at hch
    have hstep := lpInv_step q.2 h hch.1 (hu q.1 (by simp))
    have : applyQuotesLp lp (q :: qs) = applyQuotesLp (apply_lp q.1 q.2 lp) qs := rfl
    rw [this]
    exact ih _ q.1 hstep hch.2 (fun u hu' => hu u (by simp [hu']))

theorem lpInv_new (name : String) (t : Nat) : lpInv (newLp name) t := by
  refine ⟨rfl, by simp [newLp, U64], fun hc => absurd rfl hc⟩

theorem insertIfAbsent_absent {md : MarketData} {p : String}
    (hall : md.liquidity_providers.all (fun lp => lp.name != p) = true) :
    insertIfAbsent md p = ⟨md.liquidity_providers ++ [newLp p]⟩ := by
  unfold insertIfAbsent; rw [if_pos hall]

theorem insertIfAbsent_present {md : MarketData} {p : String}
    (hall : ¬ (md.liquidity_providers.all (fun lp => lp.name != p) = true)) :
    insertIfAbsent md p = md := by
  unfold insertIfAbsent; rw [if_neg hall]

/-! ## Claim theorems -/

/-- C1, counterexample.  The store apply operation is not abort-free on
out-of-order quotes: after a first CITI quote anchors zero_time_ref at
10000000000, a validated CITI quote with the older timestamp 9000000000
reaches the u64 subtraction of src/consumer.rs line 211 with the
underflow condition true, so an overflow-checked build panics there
(and a release build wraps, see the C5 counterexample). -/
theorem C1_counterexample :
    update_aborts
      (MarketData.update ⟨[]⟩
        "CITI|EURUSD|1.1000|1.1002|1.1001|1.1003|1.1002|1.1004|10000000000").1
      "CITI|EURUSD|1.1000|1.1002|1.1001|1.1003|1.1002|1.1004|9000000000" = true := by decide

/-- C1, amended.  For every store state and validated quote whose
timestamp is not older than the anchor of an already-populated series
of the same provider (in particular for any new or empty provider), the
store apply operation never reaches the underflowing subtraction, hence
never fails or aborts. -/
theorem C1_apply_inorder_no_abort (md : MarketData) (provider : String) (timestamp : Nat)
    (h : ∀ lp ∈ md.liquidity_providers, lp.name = provider →
      lp.buy_points = [] ∨ lp.zero_time_ref ≤ timestamp) :
    apply_aborts md provider timestamp = false := by
  unfold apply_aborts
  by_cases hall : md.liquidity_providers.all (fun lp => lp.name != provider) = true
  · rw [insertIfAbsent_absent hall]
    have hfa : ∀ lp ∈ md.liquidity_providers,
        (fun lp : LpBuyPoints => lp.name == provider) lp = false := by
      intro lp hlp
      have := List.all_eq_true.mp hall lp hlp
      simpa [bne] using this
    simp only [find?_append_left_none _ _ _ hfa]
    simp [List.find?, newLp]
  · rw [insertIfAbsent_present hall]
    cases hf : md.liquidity_providers.find? (fun lp => lp.name == provider) with
    | none => rfl
    | some lp =>
      have hmem := List.mem_of_find?_eq_some hf
      have hpred := @List.find?_some LpBuyPoints (fun lp => lp.name == provider) lp
        md.liquidity_providers hf
      have hname : lp.name = provider := by simpa using hpred
      rcases h lp hmem hname with hbe | hle
      · simp [hbe]
      · simp
        omega

/-- C1, witness for the amended theorem at the empty store and a fresh
provider. -/
theorem C1_witness :
    (∀ lp ∈ (⟨[]⟩ : MarketData).liquidity_providers, lp.name = "CITI" →
      lp.buy_points = [] ∨ lp.zero_time_ref ≤ 5) ∧
    apply_aborts ⟨[]⟩ "CITI" 5 = false :=
  ⟨by simp, C1_apply_inorder_no_abort ⟨[]⟩ "CITI" 5 (by simp)⟩

/-- C2, counterexample.  With no restriction on timestamp order the
x coordinates are not non-decreasing: three validated quotes for one
provider at timestamps 10, 20 and 15 seconds produce the x sequence
0, 10, 5. -/
theorem C2_counterexample :
    lpXs
      ((MarketData.update
        (MarketData.update
          (MarketData.update ⟨[]⟩ "A|EURUSD|1.0|1.0|1.0|1.0|1.0|1.0|10000000000").1
          "A|EURUSD|1.0|1.0|1.0|1.0|1.0|1.0|20000000000").1
        "A|EURUSD|1.0|1.0|1.0|1.0|1.0|1.0|15000000000").1.liquidity_providers.headD
        (newLp "A")) = [0, 10, 5] ∧
    nondecreasing [0, 10, 5] = false :=
  ⟨by decide, by decide⟩

/-- C2, amended.  When the quotes applied to a provider's series carry
non-decreasing u64 timestamps - the spec's insertion order equals
arrival order reading - the x coordinates of buy_points are
non-decreasing from first element to last. -/
theorem C2_xs_monotone_inorder (name : String) (qs : List (Nat × String))
    (hord : nondecreasing (qs.map Prod.fst) = true)
    (hbound : ∀ u ∈ qs.map Prod.fst, u < U64) :
    nondecreasing (lpXs (applyQuotesLp (newLp name) qs)) = true := by
  obtain ⟨t', hinv⟩ := lpInv_fold qs (newLp name) 0 (lpInv_new name 0)
    (nondecreasing_cons_zero _ hord) hbound
  exact hinv.1

/-- C2, witness at a two-quote in-order batch. -/
theorem C2_witness :
    nondecreasing ([(10000000000, "1.1"), (20000000000, "1.2")].map Prod.fst) = true ∧
    (∀ u ∈ [(10000000000, "1.1"), (20000000000, "1.2")].map Prod.fst, u < U64) ∧
    nondecreasing (lpXs (applyQuotesLp (newLp "CITI")
      [(10000000000, "1.1"), (20000000000, "1.2")])) = true :=
  ⟨by decide, by decide,
    C2_xs_monotone_inorder "CITI" [(10000000000, "1.1"), (20000000000, "1.2")]
      (by decide) (by decide)⟩

/-- C3: parsing is all-or-nothing.  For every store state and every raw
message on which update reports any error, the returned store is
exactly the input store - same provider count, same points, same
anchors - because every parse failure returns before the first
mutation. -/
theorem C3_parse_all_or_nothing (md : MarketData) (s : String) (e : AppError)
    (h : (MarketData.update md s).2 = some e) : (MarketData.update md s).1 = md := by
  unfold MarketData.update extract_market_data at *
  cases hp : parse_quote s with
  | error e' => simp [hp]
  | ok q => rw [hp] at h; simp at h

/-- C3, witness: a message with the third price field replaced by a
non-numeric word fails with the float parse error and leaves the store
unchanged. -/
theorem C3_witness :
    ((MarketData.update ⟨[]⟩
        "CITI|EURUSD|abc|1.1003|1.1002|1.1004|1.1002|1.1004|1000000000000000000").2
      = some (AppError.ParseFloat FloatErrorKind.invalid)) ∧
    (MarketData.update ⟨[]⟩
        "CITI|EURUSD|abc|1.1003|1.1002|1.1004|1.1002|1.1004|1000000000000000000").1
      = ⟨[]⟩ :=
  ⟨by decide,
    C3_parse_all_or_nothing ⟨[]⟩
      "CITI|EURUSD|abc|1.1003|1.1002|1.1004|1.1002|1.1004|1000000000000000000"
      (AppError.ParseFloat FloatErrorKind.invalid) (by decide)⟩

/-- C4: for the first accepted quote of a provider (empty series), the
store sets the start hour and minute to the UTC wall-clock hour (below
24) and minute (below 60) of the quote timestamp; the two-digit
rendering of either value always re-parses as an f64, so the
default-to-zero fallback of src/consumer.rs lines 194 to 206 is never
taken, for every u64 nanosecond value. -/
theorem C4_first_quote_anchors (lp : LpBuyPoints) (t : Nat) (price : String)
    (h : lp.buy_points = []) :
    (apply_lp t price lp).global_start_hour = hourOfNanos t ∧
    (apply_lp t price lp).global_start_minute = minuteOfNanos t ∧
    hourOfNanos t < 24 ∧ minuteOfNanos t < 60 ∧
    parse_f64 (fmt02 (hourOfNanos t)) = Except.ok (fmt02 (hourOfNanos t)) ∧
    parse_f64 (fmt02 (minuteOfNanos t)) = Except.ok (fmt02 (minuteOfNanos t)) := by
  have hlen : lp.buy_points.length = 0 := by simp [h]
  unfold apply_lp
  rw [if_pos hlen]
  exact ⟨global_start_hour_of_eq t, global_start_minute_of_eq t, hourOfNanos_lt t,
    minuteOfNanos_lt t,
    parse_f64_fmt02 _ (Nat.lt_of_lt_of_le (hourOfNanos_lt t) (by omega)),
    parse_f64_fmt02 _ (minuteOfNanos_lt t)⟩

/-- C4, witness at the example timestamp of the design document. -/
theorem C4_witness :
    (newLp "CITI").buy_points = [] ∧
    (apply_lp 1000000000000000000 "1.1000" (newLp "CITI")).global_start_hour
      = hourOfNanos 1000000000000000000 ∧
    hourOfNanos 1000000000000000000 < 24 :=
  ⟨rfl,
    (C4_first_quote_anchors (newLp "CITI") 1000000000000000000 "1.1000" rfl).1,
    (C4_first_quote_anchors (newLp "CITI") 1000000000000000000 "1.1000" rfl).2.2.1⟩

/-- C5, counterexample.  The subsequent-quote formula of the claim,
floor of the signed difference over one billion, does not hold for an
out-of-order quote: with the anchor at 10000000000 a release build
appends the wrapped x coordinate 18446744072 where the claimed floor
formula yields minus one (an overflow-checked build panics instead of
appending, as the C1 counterexample shows). -/
theorem C5_counterexample :
    ((MarketData.update
        (MarketData.update ⟨[]⟩
          "CITI|EURUSD|1.1000|1.1002|1.1001|1.1003|1.1002|1.1004|10000000000").1
        "CITI|EURUSD|1.2000|1.2002|1.2001|1.2003|1.2002|1.2004|9000000000").1.liquidity_providers.map
      (fun lp => lpXs lp)) = [[0, 18446744072]] ∧
    spec_elapsed_seconds 9000000000 10000000000 = -1 ∧
    ((18446744072 : Int) ≠ -1) :=
  ⟨by decide, by decide, by decide⟩

/-- C5, amended: the Series Store algorithm as implemented.  A quote for
an absent provider creates its series with zero_time_ref set to the
quote timestamp, exactly the point at x zero carrying the 1M buy price,
and the wall-clock anchors; a subsequent quote with timestamp at or
after the anchor appends the floor of the elapsed nanoseconds over one
billion; parsing the document's P2 message into a fresh store yields
exactly that CITI series, and a second CITI quote five seconds later
appends the point at x five. -/
theorem C5_store_algorithm :
    (∀ (md : MarketData) (p price : String) (t : Nat),
      (∀ lp ∈ md.liquidity_providers, (lp.name == p) = false) →
      apply_quote md p price t =
        ⟨md.liquidity_providers ++
          [{ name := p, buy_points := [(0, price)], zero_time_ref := t,
             global_start_hour := global_start_hour_of t,
             global_start_minute := global_start_minute_of t }]⟩)
    ∧ (∀ (md : MarketData) (p price : String) (t : Nat) (lp : LpBuyPoints),
      md.liquidity_providers.find? (fun l => l.name == p) = some lp →
      lp.buy_points ≠ [] → lp.zero_time_ref ≤ t → t < U64 →
      (apply_quote md p price t).liquidity_providers.find? (fun l => l.name == p) =
        some { lp with buy_points :=
          lp.buy_points ++ [((t - lp.zero_time_ref) / 1000000000, price)] })
    ∧ MarketData.update ⟨[]⟩ "CITI|EURUSD|1.1000|1.1002|1.1001|1.1003|1.1002|1.1004|1000000000000000000"
        = (⟨[{ name := "CITI", buy_points := [(0, "1.1000")],
               zero_time_ref := 1000000000000000000,
               global_start_hour := 1, global_start_minute := 46 }]⟩, none)
    ∧ (MarketData.update
          (MarketData.update ⟨[]⟩
            "CITI|EURUSD|1.1000|1.1002|1.1001|1.1003|1.1002|1.1004|1000000000000000000").1
          "CITI|EURUSD|1.2000|1.2002|1.2001|1.2003|1.2002|1.2004|1000000005000000000").1.liquidity_providers.map
        (fun lp => lp.buy_points)
        = [[(0, "1.1000"), (5, "1.2000")]] := by
  refine ⟨?_, ?_, by decide, by decide⟩
  · intro md p price t h
    have hall : md.liquidity_providers.all (fun lp => lp.name != p) = true := by
      apply List.all_eq_true.mpr
      intro lp hlp
      simp [bne, h lp hlp]
    simp only [apply_quote, insertIfAbsent_absent hall]
    rw [updateFirst_append_left _ _ _ _ h]
    have hufs : updateFirst (fun l : LpBuyPoints => l.name == p) (apply_lp t price) [newLp p]
        = [apply_lp t price (newLp p)] := by
      simp [updateFirst, newLp]
    rw [hufs]
    have happ : apply_lp t price (newLp p)
        = { name := p, buy_points := [(0, price)], zero_time_ref := t,
            global_start_hour := global_start_hour_of t,
            global_start_minute := global_start_minute_of t } := by
      simp [apply_lp, newLp]
    rw [happ]
  · intro md p price t lp hf hne hle hlt
    have hmem := List.mem_of_find?_eq_some hf
    have hpred := @List.find?_some LpBuyPoints (fun l => l.name == p) lp
      md.liquidity_providers hf
    have hexists : md.liquidity_providers.any (fun l => l.name == p) = true :=
      List.any_eq_true.mpr ⟨lp, hmem, hpred⟩
    have hins : insertIfAbsent md p = md := by
      apply insertIfAbsent_present
      rw [all_bne_eq, hexists]
      simp
    have hq : ∀ a : LpBuyPoints, ((fun l : LpBuyPoints => l.name == p) a = true) →
        ((fun l : LpBuyPoints => l.name == p) (apply_lp t price a) = true) := by
      intro a ha
      simpa [apply_lp_name] using ha
    simp only [apply_quote, hins]
    rw [updateFirst_find? _ _ hq, hf]
    have hlpapp : apply_lp t price lp
        = { lp with buy_points :=
            lp.buy_points ++ [((t - lp.zero_time_ref) / 1000000000, price)] } := by
      unfold apply_lp
      rw [if_neg (fun hc => hne (List.length_eq_zero.mp hc))]
      rw [wrap_sub_eq hle hlt]
    simp [hlpapp]

/-- C5, witness for the subsequent-quote conjunct: a second CITI quote
five seconds after the anchor appends the point at x five. -/
theorem C5_witness :
    (List.find? (fun l : LpBuyPoints => l.name == "CITI")
      [({ name := "CITI", buy_points := [(0, "1.1000")], zero_time_ref := 10000000000,
          global_start_hour := 0, global_start_minute := 0 } : LpBuyPoints)]
      = some { name := "CITI", buy_points := [(0, "1.1000")], zero_time_ref := 10000000000,
               global_start_hour := 0, global_start_minute := 0 }) ∧
    (apply_quote
        ⟨[{ name := "CITI", buy_points := [(0, "1.1000")], zero_time_ref := 10000000000,
            global_start_hour := 0, global_start_minute := 0 }]⟩
        "CITI" "1.3000" 15000000000).liquidity_providers.find? (fun l => l.name == "CITI")
      = some { name := "CITI", buy_points := [(0, "1.1000"), (5, "1.3000")],
               zero_time_ref := 10000000000, global_start_hour := 0,
               global_start_minute := 0 } :=
  ⟨by decide,
    C5_store_algorithm.2.1
      ⟨[{ name := "CITI", buy_points := [(0, "1.1000")], zero_time_ref := 10000000000,
          global_start_hour := 0, global_start_minute := 0 }]⟩
      "CITI" "1.3000" 15000000000
      { name := "CITI", buy_points := [(0, "1.1000")], zero_time_ref := 10000000000,
        global_start_hour := 0, global_start_minute := 0 }
      (by decide) (by decide) (by decide) (by decide)⟩

/-- C6, counterexample.  The claimed case analysis quantified over every
elapsed seconds value fails above the u32 range: the source casts the
f64 seconds to u32, which saturates at 4294967295, so at 4294967340
seconds the code renders a minute count one lower than the spec's floor
formula. -/
theorem C6_counterexample :
    get_time_axis_string 4294967340 0 0 = "06:28" ∧
    specLabel 4294967340 0 0 = "06:29" ∧
    get_time_axis_string 4294967340 0 0 ≠ specLabel 4294967340 0 0 :=
  ⟨by decide, by decide, by decide⟩

/-- C6, amended.  For every integral elapsed seconds value up to the
u32 maximum 4294967295 and anchors in range, the labeler agrees exactly
with the spec's case analysis; in particular the rollover example at
3660 seconds from 23:59 renders 01:00, and sub-minute ticks are blank
for every anchor. -/
theorem C6_labeler :
    (∀ (s h m : Nat), s ≤ 4294967295 → h ≤ 23 → m ≤ 59 →
      get_time_axis_string s h m = specLabel s h m) ∧
    get_time_axis_string 3660 23 59 = "01:00" ∧
    (∀ h m : Nat, get_time_axis_string 30 h m = "") := by
  refine ⟨?_, by decide, fun h m => rfl⟩
  intro s h m hs _ _
  have hmin : min s 4294967295 = s := Nat.min_eq_left hs
  simp only [get_time_axis_string, specLabel, hmin]
  split_ifs <;> first | rfl | omega

/-- C6, witness at the document's rollover example. -/
theorem C6_witness :
    (3660 ≤ 4294967295 ∧ 23 ≤ 23 ∧ 59 ≤ 59) ∧
    get_time_axis_string 3660 23 59 = specLabel 3660 23 59 :=
  ⟨⟨by decide, by decide, by decide⟩,
    C6_labeler.1 3660 23 59 (by decide) (by decide) (by decide)⟩

/-- C7, counterexample.  NumParams is a payload-free variant: a
one-field message and a two-field message produce the very same error
value, so no observed field count is recorded for diagnostics. -/
theorem C7_counterexample :
    (MarketData.update ⟨[]⟩ "a").2 = some AppError.NumParams ∧
    (MarketData.update ⟨[]⟩ "a|b").2 = some AppError.NumParams ∧
    (MarketData.update ⟨[]⟩ "a").2 = (MarketData.update ⟨[]⟩ "a|b").2 :=
  ⟨by decide, by decide, by decide⟩

/-- C7, amended.  For every store state and every input splitting into
fewer than nine fields, update returns exactly the NumParams error
(which carries no observed count) and the untouched store. -/
theorem C7_field_count (md : MarketData) (s : String)
    (h : (splitPipe s.data).length < 9) :
    MarketData.update md s = (md, some AppError.NumParams) := by
  unfold MarketData.update extract_market_data parse_quote
  have hgp : get_params s 9 = Except.error AppError.NumParams := by
    simp [get_params, h]
  rw [hgp]

/-- C7, witness at a three-field message. -/
theorem C7_witness :
    (splitPipe "a|b|c".data).length < 9 ∧
    MarketData.update ⟨[]⟩ "a|b|c" = (⟨[]⟩, some AppError.NumParams) :=
  ⟨by decide, C7_field_count ⟨[]⟩ "a|b|c" (by decide)⟩

/-- C8: every apply preserves the store shape invariants.  The provider
name list is unchanged when the provider is known and is extended at
the tail on first discovery (discovery order equals listing order);
name uniqueness is preserved; and the sublist of series belonging to
every other provider - points, anchor and clock fields included - is
exactly unchanged. -/
theorem C8_apply_isolation (md : MarketData) (p price : String) (t : Nat) :
    ((apply_quote md p price t).liquidity_providers.map (fun lp => lp.name)
      = if md.liquidity_providers.any (fun lp => lp.name == p)
        then md.liquidity_providers.map (fun lp => lp.name)
        else md.liquidity_providers.map (fun lp => lp.name) ++ [p])
    ∧ ((md.liquidity_providers.map (fun lp => lp.name)).Nodup →
      ((apply_quote md p price t).liquidity_providers.map (fun lp => lp.name)).Nodup)
    ∧ ((apply_quote md p price t).liquidity_providers.filter (fun lp => !(lp.name == p))
      = md.liquidity_providers.filter (fun lp => !(lp.name == p))) := by
  have hq : ∀ a : LpBuyPoints, ((fun lp : LpBuyPoints => lp.name == p) a = true) →
      ((fun lp : LpBuyPoints => lp.name == p) (apply_lp t price a) = true) := by
    intro a ha
    simpa [apply_lp_name] using ha
  have hmapu := updateFirst_map (fun lp : LpBuyPoints => lp.name == p) (apply_lp t price)
    (fun lp => lp.name) (fun a => apply_lp_name t price a)
  have hfilu := updateFirst_filter_not (fun lp : LpBuyPoints => lp.name == p)
    (apply_lp t price) hq
  by_cases hany : md.liquidity_providers.any (fun lp => lp.name == p) = true
  · have hins : insertIfAbsent md p = md := by
      apply insertIfAbsent_present
      rw [all_bne_eq, hany]
      simp
    have hnames : (apply_quote md p price t).liquidity_providers.map (fun lp => lp.name)
        = md.liquidity_providers.map (fun lp => lp.name) := by
      simp only [apply_quote, hins]
      exact hmapu md.liquidity_providers
    refine ⟨by rw [if_pos hany, hnames], fun hnd => by rw [hnames]; exact hnd, ?_⟩
    simp only [apply_quote, hins]
    exact hfilu md.liquidity_providers
  · have hall : md.liquidity_providers.all (fun lp => lp.name != p) = true := by
      rw [all_bne_eq]
      simp [Bool.eq_false_iff.mpr hany]
    have hins := insertIfAbsent_absent hall
    have hnotmem : ∀ lp ∈ md.liquidity_providers, (lp.name == p) = false := by
      intro lp hlp
      have := List.all_eq_true.mp hall lp hlp
      simpa [bne] using this
    have hnames : (apply_quote md p price t).liquidity_providers.map (fun lp => lp.name)
        = md.liquidity_providers.map (fun lp => lp.name) ++ [p] := by
      simp only [apply_quote, hins]
      rw [hmapu (md.liquidity_providers ++ [newLp p])]
      simp [newLp]
    refine ⟨by rw [if_neg hany, hnames], ?_, ?_⟩
    · intro hnd
      rw [hnames]
      have hpnot : p ∉ md.liquidity_providers.map (fun lp => lp.name) := by
        intro hc
        obtain ⟨lp, hlp, hname⟩ := List.mem_map.mp hc
        have := hnotmem lp hlp
        rw [hname] at this
        simp at this
      simp [List.nodup_append, hnd, hpnot]
    · simp only [apply_quote, hins]
      rw [hfilu (md.liquidity_providers ++ [newLp p])]
      rw [List.filter_append]
      have hsingle : ([newLp p].filter (fun lp : LpBuyPoints => !(lp.name == p))) = [] := by
        simp [newLp]
      rw [hsingle, List.append_nil]

/-- C8, witness: applying a CITI quote to a two-provider store keeps the
name list duplicate-free. -/
theorem C8_witness :
    ((⟨[{ name := "CITI", buy_points := [(0, "1.0")], zero_time_ref := 5000000000,
          global_start_hour := 0, global_start_minute := 0 },
        { name := "BARX", buy_points := [(0, "2.0")], zero_time_ref := 7000000000,
          global_start_hour := 0, global_start_minute := 0 }]⟩ : MarketData).liquidity_providers.map
      (fun lp => lp.name)).Nodup ∧
    ((apply_quote
        ⟨[{ name := "CITI", buy_points := [(0, "1.0")], zero_time_ref := 5000000000,
            global_start_hour := 0, global_start_minute := 0 },
          { name := "BARX", buy_points := [(0, "2.0")], zero_time_ref := 7000000000,
            global_start_hour := 0, global_start_minute := 0 }]⟩
        "CITI" "1.5" 6000000000).liquidity_providers.map (fun lp => lp.name)).Nodup :=
  ⟨by decide,
    (C8_apply_isolation
      ⟨[{ name := "CITI", buy_points := [(0, "1.0")], zero_time_ref := 5000000000,
          global_start_hour := 0, global_start_minute := 0 },
        { name := "BARX", buy_points := [(0, "2.0")], zero_time_ref := 7000000000,
          global_start_hour := 0, global_start_minute := 0 }]⟩
      "CITI" "1.5" 6000000000).2.1 (by decide)⟩

/-- C9, counterexample.  The numeric parse error identifies neither the
failing field nor the offending text: a failure in the third field, a
failure in the fourth field, and a failure with different text all
produce the identical error value. -/
theorem C9_counterexample :
    (MarketData.update ⟨[]⟩ "CITI|EURUSD|abc|1.1|1.1|1.1|1.1|1.1|5").2
      = (MarketData.update ⟨[]⟩ "CITI|EURUSD|1.1|abc|1.1|1.1|1.1|1.1|5").2 ∧
    (MarketData.update ⟨[]⟩ "CITI|EURUSD|abc|1.1|1.1|1.1|1.1|1.1|5").2
      = (MarketData.update ⟨[]⟩ "CITI|EURUSD|xyz|1.1|1.1|1.1|1.1|1.1|5").2 ∧
    (MarketData.update ⟨[]⟩ "CITI|EURUSD|abc|1.1|1.1|1.1|1.1|1.1|5").2
      = some (AppError.ParseFloat FloatErrorKind.invalid) :=
  ⟨rfl, rfl, rfl⟩

/-- C9, amended.  For every store state, a price field failing the f64
parse yields the ParseFloat error and a timestamp failing the u64 parse
yields the ParseInt error, each carrying only the std error kind
(invalid versus empty), never the field position or the original
text. -/
theorem C9_numeric_error_kinds (md : MarketData) :
    (MarketData.update md "CITI|EURUSD|abc|1.1|1.1|1.1|1.1|1.1|5").2 =
      some (AppError.ParseFloat FloatErrorKind.invalid) ∧
    (MarketData.update md "CITI|EURUSD||1.1|1.1|1.1|1.1|1.1|5").2 =
      some (AppError.ParseFloat FloatErrorKind.empty) ∧
    (MarketData.update md "CITI|EURUSD|1.1|1.1|1.1|1.1|1.1|1.1|abc").2 =
      some (AppError.ParseInt IntErrorKind.invalidDigit) :=
  ⟨rfl, rfl, rfl⟩

/-- C10: the field-count check counts empty fields.  The input of
exactly eight bars splits into nine empty fields, passes the count
check and fails with the empty-field error on the provider; in general
every nine-field message whose provider field trims to nothing yields
the empty-field error, not the field-count error, and leaves the store
untouched. -/
theorem C10_empty_fields_counted :
    (∀ md : MarketData, MarketData.update md "||||||||" = (md, some AppError.IsEmpty)) ∧
    (∀ (md : MarketData) (s : String),
      (splitPipe s.data).length = 9 →
      trimChars ((splitPipe s.data).headD []) = [] →
      MarketData.update md s = (md, some AppError.IsEmpty)) := by
  constructor
  · intro md; rfl
  · intro md s h9 hh
    unfold MarketData.update extract_market_data parse_quote
    have hgp : get_params s 9 = Except.ok (splitPipe s.data) := by
      simp [get_params, h9]
    have h0 : (splitPipe s.data).get? 0 = some ((splitPipe s.data).headD []) := by
      cases hsp : splitPipe s.data with
      | nil => rw [hsp] at h9; simp at h9
      | cons a l => simp
    have hsf : get_str_field (some ((splitPipe s.data).headD []))
        = Except.error AppError.IsEmpty := by
      simp only [get_str_field, Option.getD_some, hh]
      rfl
    simp only [hgp, h0, hsf]

/-- C10, witness: a nine-field message whose provider field is a single
blank is rejected as empty, not as a field-count failure. -/
theorem C10_witness :
    (splitPipe " |EURUSD|1|1|1|1|1|1|5".data).length = 9 ∧
    trimChars ((splitPipe " |EURUSD|1|1|1|1|1|1|5".data).headD []) = [] ∧
    MarketData.update ⟨[]⟩ " |EURUSD|1|1|1|1|1|1|5" = (⟨[]⟩, some AppError.IsEmpty) :=
  ⟨by decide, by decide,
    C10_empty_fields_counted.2 ⟨[]⟩ " |EURUSD|1|1|1|1|1|1|5" (by decide) (by decide)⟩
